import Mathlib

/-!
Shallow embedding of the eshop-order-service transactional core
(src/domain.rs, src/events.rs, src/repositories.rs, src/uow.rs, src/cqrs.rs).

Modelling conventions:
* Rust `HashMap<String, V>` is modelled as an association list with
  first-match lookup and replace-or-append insertion (`mapGet` / `mapInsert`).
* The MongoDB client session is modelled as a list of pending writes
  (`UowState.session`); `commit_transaction` applies them to the durable
  store, `abort_transaction` discards them.  The two driver round-trips of
  `MongoDbCartRepository::update` (replace_one + in-session find_one
  read-back) are modelled as one fallible step whose outcome is an
  environment parameter (`Backend.updateResult`); on success the in-session
  read-back returns the just-written document.
* Rust `Result<T, String>` is `Except String T`; a Rust `.unwrap()` panic is
  modelled by an `Option` result where `none` means the task panicked.
* The external message broker is an environment parameter
  `Backend.publish : Event → Except String Unit`.
* `i32` quantities are modelled as `Int`; quantities move by ±1 per request,
  so machine overflow is not modelled.
-/

namespace EshopOrderService

/-- First-match lookup in an association list (model of `HashMap::get`). -/
def mapGet {α : Type} : List (String × α) → String → Option α
  | [], _ => none
  | (k', v) :: rest, k => if k' = k then some v else mapGet rest k

/-- Replace-or-append insertion (model of `HashMap::insert`). -/
def mapInsert {α : Type} : List (String × α) → String → α → List (String × α)
  | [], k, v => [(k, v)]
  | (k', v') :: rest, k, v =>
      if k' = k then (k, v) :: rest else (k', v') :: mapInsert rest k v

/-- Model of `HashMap::retain(|k, _| *k != key)`: drop every entry with the
given key. -/
def mapRemoveAll {α : Type} (m : List (String × α)) (k : String) : List (String × α) :=
  m.filter fun kv => kv.1 ≠ k

/-- Cart aggregate (src/domain.rs). -/
structure Cart where
  id : String
  products : List (String × Int)
  created_at_utc : Int
  updated_at_utc : Int
  version : Nat
deriving DecidableEq, Repr

/-- Domain event (src/events.rs, `enum Event`). -/
inductive Event where
  | ProductAddedToCartEvent (product_id : String)
  | ProductRemovedFromCartEvent (product_id : String)
deriving DecidableEq, Repr

/-- State owned by `OrderUnitOfWork` together with the cart collection it
writes through: the durable cart store, the pending writes of the open
transaction on the shared client session, and the staged-event queue
(`events_to_publish` in src/uow.rs). -/
structure UowState where
  store : List (String × Cart)
  session : List (String × Cart)
  events_to_publish : List Event
deriving DecidableEq, Repr

/-- Environment behaviour of the external collaborators for one handler
invocation: outcome of the repository `create`/`update` round-trip, the
broker's response per event, and whether `commit_transaction` /
`abort_transaction` succeed (their failure panics through `.unwrap()`). -/
structure Backend where
  createResult : Except String Unit
  updateResult : Except String Unit
  publish : Event → Except String Unit
  txCommitOk : Bool
  txAbortOk : Bool

/-- Environment in which every external call succeeds. -/
def goodBackend : Backend :=
  { createResult := Except.ok ()
    updateResult := Except.ok ()
    publish := fun _ => Except.ok ()
    txCommitOk := true
    txAbortOk := true }

/-- Committing the transaction applies the pending session writes, in order,
to the durable store. -/
def applyWrites (store : List (String × Cart)) (session : List (String × Cart)) :
    List (String × Cart) :=
  session.foldl (fun acc kv => mapInsert acc kv.1 kv.2) store

/-- Bool test distinguishing `Err` results, model of the
`single_event_failed` scan in `OrderUnitOfWork::commit`. -/
def exceptIsErr (r : Except String Unit) : Bool :=
  match r with
  | Except.ok _ => false
  | Except.error _ => true

/-- `OrderUnitOfWork::commit` (src/uow.rs lines 73-108).
Step 1: `commit_transaction().unwrap()` — on failure the task panics
(`none`), nothing is published.  Step 2: every staged event is offered to
the broker once, in order; the result vector models the `event_results`
vector of lines 84-88.  The queue is cleared unconditionally (line 101).
If any publish failed the whole call returns the fixed error string of
line 104; no abort and no retry of the data mutation happens. -/
def OrderUnitOfWork.commit (b : Backend) (s : UowState) :
    Option (UowState × Except String Unit × List (Except String Unit)) :=
  if b.txCommitOk then
    let event_results := s.events_to_publish.map b.publish
    let single_event_failed := event_results.any exceptIsErr
    let s' : UowState :=
      { store := applyWrites s.store s.session
        session := []
        events_to_publish := [] }
    if single_event_failed then
      some (s', Except.error "Failed to commit changes.", event_results)
    else
      some (s', Except.ok (), event_results)
  else
    none

/-- `OrderUnitOfWork::rollback` (src/uow.rs lines 110-119):
`abort_transaction().unwrap()` (panic on failure, `none`) and return `Ok`.
The staged-event queue is not touched by this function. -/
def OrderUnitOfWork.rollback (b : Backend) (s : UowState) :
    Option (UowState × Except String Unit) :=
  if b.txAbortOk then
    some ({ s with session := [] }, Except.ok ())
  else
    none

/-- `MongoDbCartRepository::read` (src/repositories.rs lines 324-332):
a `find_one` outside any session, observing the durable store. -/
def MongoDbCartRepository.read (store : List (String × Cart)) (id : String) :
    Except String Cart :=
  match mapGet store id with
  | some c => Except.ok c
  | none => Except.error ("Failed to find Cart with id " ++ id)

/-- `InMemoryCartRepository::update` (src/repositories.rs lines 171-183):
insert into the map, then read the key back; `Ok` with the stored value if
the read-back finds it, else the `did not exist` error. -/
def InMemoryCartRepository.update (carts : List (String × Cart)) (id : String)
    (cart : Cart) : List (String × Cart) × Except String Cart :=
  let carts' := mapInsert carts id cart
  match mapGet carts' id with
  | some x => (carts', Except.ok x)
  | none => (carts', Except.error ("Cart with id " ++ id ++ " did not exist"))

/-- Command payload of `AddProductToCartCommand` /
`RemoveProductFromCartCommand` (src/cqrs.rs): both carry a cart id and a
product id. -/
structure CartProductCommand where
  cart_id : String
  product_id : String
deriving DecidableEq, Repr

/-- `CreateCartResponse` (src/dtos.rs). -/
structure CreateCartResponse where
  id : String
deriving DecidableEq, Repr

/-- `AddProductToCartResponse` (src/dtos.rs). -/
structure AddProductToCartResponse where
  cart_id : String
deriving DecidableEq, Repr

/-- `EmptyResponse` (src/dtos.rs). -/
structure EmptyResponse where
deriving DecidableEq, Repr

/-- `CreateCartCommandHandler::handle` (src/cqrs.rs lines 67-103).
The generated UUID and wall-clock timestamp are parameters `newId`, `now`.
Builds an empty cart, begins a transaction, `create`s it through the
repository (insert under the session plus in-session read-back, merged into
one fallible step), then commits; a commit error is returned to the caller
(this handler does not unwrap it), a create error triggers rollback. -/
def CreateCartCommandHandler.handle (b : Backend) (newId : String) (now : Int)
    (s : UowState) : Option (UowState × Except String CreateCartResponse) :=
  let domain_cart : Cart :=
    { id := newId
      products := []
      created_at_utc := now
      updated_at_utc := now
      version := 0 }
  let s1 : UowState := { s with session := [] }
  match b.createResult with
  | Except.ok _ =>
      let s2 : UowState :=
        { s1 with session := mapInsert s1.session domain_cart.id domain_cart }
      let created_cart := domain_cart
      match OrderUnitOfWork.commit b s2 with
      | none => none
      | some (s3, Except.ok _, _) =>
          some (s3, Except.ok { id := created_cart.id })
      | some (s3, Except.error e, _) =>
          some (s3, Except.error e)
  | Except.error e =>
      match OrderUnitOfWork.rollback b s1 with
      | none => none
      | some (s2, _) => some (s2, Except.error e)

/-- `AddProductToCartCommandHandler::handle` (src/cqrs.rs lines 119-199).
Validation of the two ids happens before any repository access; the cart is
read outside the transaction; the quantity for the product is bumped
(insert 1 when absent); the cart is replaced under a fresh transaction; one
`ProductAddedToCartEvent` is staged; finally `commit().unwrap()` — a commit
error panics the task (`none`). -/
def AddProductToCartCommandHandler.handle (b : Backend) (s : UowState)
    (input : CartProductCommand) :
    Option (UowState × Except String AddProductToCartResponse) :=
  if input.cart_id = "" then
    some (s, Except.error "Cart ID cannot be null or empty!!!")
  else if input.product_id = "" then
    some (s, Except.error "Product ID cannot be null or empty!!!")
  else
    match MongoDbCartRepository.read s.store input.cart_id with
    | Except.error e =>
        some (s, Except.error
          ("Failed to find Cart with ID " ++ input.cart_id ++ ": " ++ e))
    | Except.ok found_cart =>
        let newProducts :=
          match mapGet found_cart.products input.product_id with
          | some current_product_quantity =>
              mapInsert found_cart.products input.product_id
                (current_product_quantity + 1)
          | none => mapInsert found_cart.products input.product_id 1
        let mutated : Cart := { found_cart with products := newProducts }
        let s1 : UowState := { s with session := [] }
        match b.updateResult with
        | Except.ok _ =>
            let s2 : UowState :=
              { s1 with session := mapInsert s1.session input.cart_id mutated }
            let updated_cart := mutated
            let s3 : UowState :=
              { s2 with events_to_publish := s2.events_to_publish ++
                  [Event.ProductAddedToCartEvent input.product_id] }
            match OrderUnitOfWork.commit b s3 with
            | none => none
            | some (s4, Except.ok _, _) =>
                some (s4, Except.ok { cart_id := updated_cart.id })
            | some (_, Except.error _, _) => none
        | Except.error e =>
            match OrderUnitOfWork.rollback b s1 with
            | none => none
            | some (s2, _) =>
                some (s2, Except.error
                  ("Failed to update Cart with ID " ++ input.cart_id ++ ": " ++ e))

/-- `RemoveProductFromCartCommandHandler::handle` (src/cqrs.rs lines
215-294).  Same validation; a missing product entry returns the
`was not found` error before any transaction, update or staging; quantity 1
drops the entry via `retain`, otherwise the quantity is decremented; then
transaction, update, staging of one `ProductRemovedFromCartEvent`, and
`commit().unwrap()` (panic on commit error). -/
def RemoveProductFromCartCommandHandler.handle (b : Backend) (s : UowState)
    (input : CartProductCommand) :
    Option (UowState × Except String EmptyResponse) :=
  if input.cart_id = "" then
    some (s, Except.error "Cart ID cannot be null or empty!!!")
  else if input.product_id = "" then
    some (s, Except.error "Product ID cannot be null or empty!!!")
  else
    match MongoDbCartRepository.read s.store input.cart_id with
    | Except.error e =>
        some (s, Except.error
          ("Failed to find Cart with ID " ++ input.cart_id ++ ": " ++ e))
    | Except.ok found_cart =>
        match mapGet found_cart.products input.product_id with
        | none =>
            some (s, Except.error
              ("Cart with id " ++ input.cart_id ++ " was not found"))
        | some current_product_quantity =>
            let newProducts :=
              if current_product_quantity = 1 then
                mapRemoveAll found_cart.products input.product_id
              else
                mapInsert found_cart.products input.product_id
                  (current_product_quantity - 1)
            let mutated : Cart := { found_cart with products := newProducts }
            let s1 : UowState := { s with session := [] }
            match b.updateResult with
            | Except.ok _ =>
                let s2 : UowState :=
                  { s1 with session := mapInsert s1.session input.cart_id mutated }
                let s3 : UowState :=
                  { s2 with events_to_publish := s2.events_to_publish ++
                      [Event.ProductRemovedFromCartEvent input.product_id] }
                match OrderUnitOfWork.commit b s3 with
                | none => none
                | some (s4, Except.ok _, _) =>
                    some (s4, Except.ok {})
                | some (_, Except.error _, _) => none
            | Except.error e =>
                match OrderUnitOfWork.rollback b s1 with
                | none => none
                | some (s2, _) =>
                    some (s2, Except.error
                      ("Failed to update Cart with ID " ++ input.cart_id ++ ": " ++ e))

/-! Helper lemmas about the association-list map model. -/

theorem mapGet_mapInsert_self {α : Type} (m : List (String × α)) (k : String) (v : α) :
    mapGet (mapInsert m k v) k = some v := by
  induction m with
  | nil => simp [mapInsert, mapGet]
  | cons kv rest ih =>
      obtain ⟨k', v'⟩ := kv
      by_cases h : k' = k
      · simp [mapInsert, h, mapGet]
      · simp [mapInsert, h, mapGet, ih]

theorem mapGet_mapInsert_ne {α : Type} (m : List (String × α)) (k : String) (v : α)
    (k' : String) (h : k' ≠ k) : mapGet (mapInsert m k v) k' = mapGet m k' := by
  induction m with
  | nil =>
      simp only [mapInsert, mapGet]
      rw [if_neg (fun hh => h hh.symm)]
  | cons kv rest ih =>
      obtain ⟨k₀, v₀⟩ := kv
      by_cases hk : k₀ = k
      · subst hk
        have : ¬ k₀ = k' := fun hh => h hh.symm
        simp [mapInsert, mapGet, this]
      · by_cases hk' : k₀ = k'
        · simp [mapInsert, hk, mapGet, hk', h]
        · simp [mapInsert, hk, mapGet, hk', ih]

theorem mapGet_mem {α : Type} {m : List (String × α)} {k : String} {v : α}
    (h : mapGet m k = some v) : (k, v) ∈ m := by
  induction m with
  | nil => simp [mapGet] at h
  | cons kv rest ih =>
      obtain ⟨k₀, v₀⟩ := kv
      by_cases hk : k₀ = k
      · subst hk
        simp [mapGet] at h
        subst h
        exact List.mem_cons_self _ _
      · simp [mapGet, hk] at h
        exact List.mem_cons_of_mem _ (ih h)

theorem mem_mapInsert {α : Type} {m : List (String × α)} {k : String} {v : α}
    {x : String × α} (h : x ∈ mapInsert m k v) : x = (k, v) ∨ x ∈ m := by
  induction m with
  | nil => simpa [mapInsert] using h
  | cons kv rest ih =>
      obtain ⟨k₀, v₀⟩ := kv
      by_cases hk : k₀ = k
      · simp [mapInsert, hk] at h
        rcases h with h | h
        · exact Or.inl h
        · exact Or.inr (List.mem_cons_of_mem _ h)
      · simp [mapInsert, hk] at h
        rcases h with h | h
        · exact Or.inr (by simp [h])
        · rcases ih h with h' | h'
          · exact Or.inl h'
          · exact Or.inr (List.mem_cons_of_mem _ h')

theorem mapGet_mapRemoveAll_self {α : Type} (m : List (String × α)) (k : String) :
    mapGet (mapRemoveAll m k) k = none := by
  induction m with
  | nil => simp [mapRemoveAll, mapGet]
  | cons kv rest ih =>
      obtain ⟨k₀, v₀⟩ := kv
      by_cases hk : k₀ = k
      · simpa [mapRemoveAll, List.filter, hk] using ih
      · simpa [mapRemoveAll, List.filter, hk, mapGet] using ih

theorem mapGet_mapRemoveAll_ne {α : Type} (m : List (String × α)) (k k' : String)
    (h : k' ≠ k) : mapGet (mapRemoveAll m k) k' = mapGet m k' := by
  induction m with
  | nil => simp [mapRemoveAll, mapGet]
  | cons kv rest ih =>
      obtain ⟨k₀, v₀⟩ := kv
      by_cases hk : k₀ = k
      · subst hk
        have : ¬ k₀ = k' := fun hh => h hh.symm
        simpa [mapRemoveAll, List.filter, mapGet, this] using ih
      · by_cases hk' : k₀ = k'
        · simp [mapRemoveAll, List.filter, hk, mapGet, hk', h]
        · simpa [mapRemoveAll, List.filter, hk, mapGet, hk'] using ih

theorem mem_mapRemoveAll {α : Type} {m : List (String × α)} {k : String}
    {x : String × α} (h : x ∈ mapRemoveAll m k) : x ∈ m :=
  List.mem_of_mem_filter h

theorem applyWrites_nil (store : List (String × Cart)) :
    applyWrites store [] = store := rfl

theorem applyWrites_cons (store : List (String × Cart)) (k : String) (v : Cart)
    (rest : List (String × Cart)) :
    applyWrites store ((k, v) :: rest) = applyWrites (mapInsert store k v) rest := rfl

theorem applyWrites_singleton (store : List (String × Cart)) (k : String) (v : Cart) :
    applyWrites store [(k, v)] = mapInsert store k v := rfl

theorem mapGet_applyWrites_not_mem {store sess : List (String × Cart)} {k : String}
    (h : k ∉ sess.map Prod.fst) :
    mapGet (applyWrites store sess) k = mapGet store k := by
  induction sess generalizing store with
  | nil => rfl
  | cons kv rest ih =>
      obtain ⟨k₀, v₀⟩ := kv
      simp only [List.map_cons, List.mem_cons] at h
      push_neg at h
      rw [applyWrites_cons, ih h.2, mapGet_mapInsert_ne]
      exact h.1

theorem mapGet_applyWrites_of_get {store sess : List (String × Cart)} {k : String}
    {v : Cart} (hu : (sess.map Prod.fst).Nodup) (h : mapGet sess k = some v) :
    mapGet (applyWrites store sess) k = some v := by
  induction sess generalizing store with
  | nil => simp [mapGet] at h
  | cons kv rest ih =>
      obtain ⟨k₀, v₀⟩ := kv
      simp only [List.map_cons, List.nodup_cons] at hu
      by_cases hk : k₀ = k
      · subst hk
        simp [mapGet] at h
        subst h
        rw [applyWrites_cons, mapGet_applyWrites_not_mem hu.1, mapGet_mapInsert_self]
      · simp [mapGet, hk] at h
        rw [applyWrites_cons]
        exact ih hu.2 h

theorem any_exceptIsErr_map_eq_false {pub : Event → Except String Unit}
    {l : List Event} :
    (l.map pub).any exceptIsErr = false ↔ ∀ e ∈ l, pub e = Except.ok () := by
  induction l with
  | nil => simp
  | cons e rest ih =>
      simp only [List.map_cons, List.any_cons, Bool.or_eq_false_iff, ih,
        List.mem_cons]
      constructor
      · rintro ⟨h1, h2⟩ x hx
        rcases hx with hx | hx
        · subst hx
          cases he : pub x with
          | ok u => cases u; rfl
          | error msg => rw [he] at h1; simp [exceptIsErr] at h1
        · exact h2 x hx
      · intro hall
        refine ⟨?_, fun x hx => hall x (Or.inr hx)⟩
        rw [hall e (Or.inl rfl)]
        rfl

theorem read_ok_iff {store : List (String × Cart)} {id : String} {c : Cart} :
    MongoDbCartRepository.read store id = Except.ok c ↔ mapGet store id = some c := by
  unfold MongoDbCartRepository.read
  cases h : mapGet store id <;> simp

/-- Publishing any list of events against an always-succeeding broker
reports no failure. -/
theorem any_isErr_map_const_ok (l : List Event) :
    (l.map fun _ => (Except.ok () : Except String Unit)).any exceptIsErr = false := by
  induction l with
  | nil => rfl
  | cons e rest ih => simp [exceptIsErr, ih]

/-- The product-map mutation performed by `AddProductToCartCommandHandler`
(src/cqrs.rs lines 135-144). -/
def addMutation (c : Cart) (pid : String) : Cart :=
  { c with products :=
      match mapGet c.products pid with
      | some current_product_quantity =>
          mapInsert c.products pid (current_product_quantity + 1)
      | none => mapInsert c.products pid 1 }

/-- The product-map mutation performed by `RemoveProductFromCartCommandHandler`
when the entry exists with quantity `q` (src/cqrs.rs lines 230-236). -/
def removeMutation (c : Cart) (pid : String) (q : Int) : Cart :=
  { c with products :=
      if q = 1 then mapRemoveAll c.products pid
      else mapInsert c.products pid (q - 1) }

/-- Well-formed cart: every quantity in the product map is at least 1. -/
def cartWF (c : Cart) : Prop := ∀ p q, (p, q) ∈ c.products → 1 ≤ q

/-- Well-formed store: every stored cart is well-formed. -/
def storeWF (st : List (String × Cart)) : Prop := ∀ id c, (id, c) ∈ st → cartWF c

theorem storeWF_mapInsert {st : List (String × Cart)} {id : String} {c : Cart}
    (hst : storeWF st) (hc : cartWF c) : storeWF (mapInsert st id c) := by
  intro id' c' hmem
  rcases mem_mapInsert hmem with h | h
  · cases h; exact hc
  · exact hst id' c' h

theorem storeWF_get {st : List (String × Cart)} {id : String} {c : Cart}
    (hst : storeWF st) (h : mapGet st id = some c) : cartWF c :=
  hst id c (mapGet_mem h)

theorem cartWF_addMutation {c : Cart} (hc : cartWF c) (pid : String) :
    cartWF (addMutation c pid) := by
  intro p q hmem
  unfold addMutation at hmem
  cases hget : mapGet c.products pid with
  | some q0 =>
      rw [hget] at hmem
      rcases mem_mapInsert hmem with h | h
      · obtain ⟨h1, h2⟩ := Prod.mk.injEq .. ▸ h
        have := hc pid q0 (mapGet_mem hget)
        omega
      · exact hc p q h
  | none =>
      rw [hget] at hmem
      rcases mem_mapInsert hmem with h | h
      · obtain ⟨h1, h2⟩ := Prod.mk.injEq .. ▸ h
        omega
      · exact hc p q h

theorem cartWF_removeMutation {c : Cart} {q : Int} (hc : cartWF c) (pid : String)
    (hq : mapGet c.products pid = some q) : cartWF (removeMutation c pid q) := by
  intro p q' hmem
  unfold removeMutation at hmem
  by_cases h1 : q = 1
  · rw [if_pos h1] at hmem
    exact hc p q' (mem_mapRemoveAll hmem)
  · rw [if_neg h1] at hmem
    rcases mem_mapInsert hmem with h | h
    · obtain ⟨ha, hb⟩ := Prod.mk.injEq .. ▸ h
      have := hc pid q (mapGet_mem hq)
      omega
    · exact hc p q' h

/-- Forward evaluation of `AddProductToCartCommandHandler::handle` in the
all-good environment on valid input: the mutated cart is written to the
store, the transaction session and the staged-event queue end empty, and
the cart id is returned. -/
theorem add_handle_good_eq {s : UowState} {input : CartProductCommand} {cart : Cart}
    (hc : input.cart_id ≠ "") (hp : input.product_id ≠ "")
    (hcart : mapGet s.store input.cart_id = some cart) :
    AddProductToCartCommandHandler.handle goodBackend s input =
      some ({ store := mapInsert s.store input.cart_id (addMutation cart input.product_id)
              session := []
              events_to_publish := [] },
            Except.ok { cart_id := cart.id }) := by
  have hread := read_ok_iff.mpr hcart
  unfold AddProductToCartCommandHandler.handle
  rw [if_neg hc, if_neg hp, hread]
  simp [goodBackend, OrderUnitOfWork.commit, any_isErr_map_const_ok, exceptIsErr,
    addMutation, applyWrites, mapInsert]

/-- Forward evaluation of `RemoveProductFromCartCommandHandler::handle` in the
all-good environment when the product entry exists. -/
theorem remove_handle_good_eq {s : UowState} {input : CartProductCommand}
    {cart : Cart} {q : Int}
    (hc : input.cart_id ≠ "") (hp : input.product_id ≠ "")
    (hcart : mapGet s.store input.cart_id = some cart)
    (hq : mapGet cart.products input.product_id = some q) :
    RemoveProductFromCartCommandHandler.handle goodBackend s input =
      some ({ store := mapInsert s.store input.cart_id (removeMutation cart input.product_id q)
              session := []
              events_to_publish := [] },
            Except.ok {}) := by
  have hread := read_ok_iff.mpr hcart
  unfold RemoveProductFromCartCommandHandler.handle
  rw [if_neg hc, if_neg hp, hread]
  simp [hq, goodBackend, OrderUnitOfWork.commit, any_isErr_map_const_ok, exceptIsErr,
    removeMutation, applyWrites, mapInsert]

/-- Forward evaluation of `RemoveProductFromCartCommandHandler::handle` when
the cart has no entry for the product: the error is returned with the state
untouched. -/
theorem remove_handle_notfound_eq {b : Backend} {s : UowState}
    {input : CartProductCommand} {cart : Cart}
    (hc : input.cart_id ≠ "") (hp : input.product_id ≠ "")
    (hcart : mapGet s.store input.cart_id = some cart)
    (hq : mapGet cart.products input.product_id = none) :
    RemoveProductFromCartCommandHandler.handle b s input =
      some (s, Except.error ("Cart with id " ++ input.cart_id ++ " was not found")) := by
  have hread := read_ok_iff.mpr hcart
  unfold RemoveProductFromCartCommandHandler.handle
  rw [if_neg hc, if_neg hp, hread]
  simp [hq]

/-- Whatever a non-panicking `commit` returns, its post-state has the
pending session writes applied to the store, an empty session and an empty
staged-event queue. -/
theorem commit_some_state {b : Backend} {s s4 : UowState} {r : Except String Unit}
    {res : List (Except String Unit)}
    (h : OrderUnitOfWork.commit b s = some (s4, r, res)) :
    s4 = { store := applyWrites s.store s.session, session := [],
           events_to_publish := [] } := by
  unfold OrderUnitOfWork.commit at h
  split at h
  · dsimp only at h
    split at h <;>
    · simp only [Option.some.injEq, Prod.mk.injEq] at h
      exact h.1.symm
  · exact absurd h (by simp)

/-- Whatever a non-panicking `rollback` returns, its post-state discards the
pending session writes and keeps everything else — including the
staged-event queue. -/
theorem rollback_some_state {b : Backend} {s s2 : UowState} {r : Except String Unit}
    (h : OrderUnitOfWork.rollback b s = some (s2, r)) :
    s2 = { s with session := [] } := by
  unfold OrderUnitOfWork.rollback at h
  split at h
  · simp only [Option.some.injEq, Prod.mk.injEq] at h
    exact h.1.symm
  · exact absurd h (by simp)

/-- Inversion of `CreateCartCommandHandler::handle`: whenever the task does
not panic, the durable store either is untouched (create failed, rollback)
or gained exactly the freshly built empty cart (the transaction committed,
whether or not event publication succeeded). -/
theorem create_handle_store_inv {b : Backend} {newId : String} {now : Int}
    {s s' : UowState} {r : Except String CreateCartResponse}
    (h : CreateCartCommandHandler.handle b newId now s = some (s', r)) :
    s'.store = s.store ∨
    s'.store = mapInsert s.store newId
      { id := newId, products := [], created_at_utc := now,
        updated_at_utc := now, version := 0 } := by
  unfold CreateCartCommandHandler.handle at h
  dsimp only at h
  split at h
  · -- createResult = Ok
    split at h
    · exact absurd h (by simp)
    · rename_i s3 u res heq
      have hst := commit_some_state heq
      simp only [Option.some.injEq, Prod.mk.injEq] at h
      obtain ⟨hs', -⟩ := h
      right
      rw [← hs', hst]
      simp [applyWrites, mapInsert]
    · rename_i s3 e res heq
      have hst := commit_some_state heq
      simp only [Option.some.injEq, Prod.mk.injEq] at h
      obtain ⟨hs', -⟩ := h
      right
      rw [← hs', hst]
      simp [applyWrites, mapInsert]
  · -- createResult = Err, rollback
    split at h
    · exact absurd h (by simp)
    · rename_i s2 u heq
      have hst := rollback_some_state heq
      simp only [Option.some.injEq, Prod.mk.injEq] at h
      obtain ⟨hs', -⟩ := h
      left
      rw [← hs', hst]

/-- Inversion of `AddProductToCartCommandHandler::handle`: whenever the task
does not panic, either an error was returned and the durable store is
untouched, or the call succeeded and the store gained exactly the
increment-mutated cart while the session and the staged queue end empty. -/
theorem add_handle_some_inv {b : Backend} {s : UowState}
    {input : CartProductCommand} {s' : UowState}
    {r : Except String AddProductToCartResponse}
    (h : AddProductToCartCommandHandler.handle b s input = some (s', r)) :
    (∃ msg, r = Except.error msg ∧ s'.store = s.store) ∨
    (∃ cart, mapGet s.store input.cart_id = some cart ∧
       r = Except.ok { cart_id := cart.id } ∧
       s' = { store := mapInsert s.store input.cart_id
                (addMutation cart input.product_id)
              session := []
              events_to_publish := [] }) := by
  unfold AddProductToCartCommandHandler.handle at h
  dsimp only at h
  split at h
  · simp only [Option.some.injEq, Prod.mk.injEq] at h
    obtain ⟨hs', hr⟩ := h
    exact Or.inl ⟨_, hr.symm, by rw [← hs']⟩
  · split at h
    · simp only [Option.some.injEq, Prod.mk.injEq] at h
      obtain ⟨hs', hr⟩ := h
      exact Or.inl ⟨_, hr.symm, by rw [← hs']⟩
    · split at h
      · -- read error
        simp only [Option.some.injEq, Prod.mk.injEq] at h
        obtain ⟨hs', hr⟩ := h
        exact Or.inl ⟨_, hr.symm, by rw [← hs']⟩
      · -- read ok
        rename_i found_cart hread
        split at h
        · -- updateResult ok
          split at h
          · exact absurd h (by simp)
          · -- commit returned Ok
            rename_i s4 u res heq
            have hst := commit_some_state heq
            simp only [Option.some.injEq, Prod.mk.injEq] at h
            obtain ⟨hs', hr⟩ := h
            refine Or.inr ⟨found_cart, read_ok_iff.mp hread, hr.symm, ?_⟩
            rw [← hs', hst]
            simp [applyWrites, mapInsert, addMutation]
          · -- commit returned Err: handler panics, contradiction
            exact absurd h (by simp)
        · -- updateResult error, rollback
          split at h
          · exact absurd h (by simp)
          · rename_i s2 u heq
            have hst := rollback_some_state heq
            simp only [Option.some.injEq, Prod.mk.injEq] at h
            obtain ⟨hs', hr⟩ := h
            exact Or.inl ⟨_, hr.symm, by rw [← hs', hst]⟩

/-- Inversion of `RemoveProductFromCartCommandHandler::handle`: whenever the
task does not panic, either an error was returned and the durable store is
untouched, or the call succeeded and the store gained exactly the
remove-mutated cart. -/
theorem remove_handle_some_inv {b : Backend} {s : UowState}
    {input : CartProductCommand} {s' : UowState}
    {r : Except String EmptyResponse}
    (h : RemoveProductFromCartCommandHandler.handle b s input = some (s', r)) :
    (∃ msg, r = Except.error msg ∧ s'.store = s.store) ∨
    (∃ cart q, mapGet s.store input.cart_id = some cart ∧
       mapGet cart.products input.product_id = some q ∧
       r = Except.ok {} ∧
       s' = { store := mapInsert s.store input.cart_id
                (removeMutation cart input.product_id q)
              session := []
              events_to_publish := [] }) := by
  unfold RemoveProductFromCartCommandHandler.handle at h
  dsimp only at h
  split at h
  · simp only [Option.some.injEq, Prod.mk.injEq] at h
    obtain ⟨hs', hr⟩ := h
    exact Or.inl ⟨_, hr.symm, by rw [← hs']⟩
  · split at h
    · simp only [Option.some.injEq, Prod.mk.injEq] at h
      obtain ⟨hs', hr⟩ := h
      exact Or.inl ⟨_, hr.symm, by rw [← hs']⟩
    · split at h
      · -- read error
        simp only [Option.some.injEq, Prod.mk.injEq] at h
        obtain ⟨hs', hr⟩ := h
        exact Or.inl ⟨_, hr.symm, by rw [← hs']⟩
      · -- read ok
        rename_i found_cart hread
        split at h
        · -- product entry missing
          simp only [Option.some.injEq, Prod.mk.injEq] at h
          obtain ⟨hs', hr⟩ := h
          exact Or.inl ⟨_, hr.symm, by rw [← hs']⟩
        · -- product entry present with quantity q
          rename_i q hq
          split at h
          · -- updateResult ok
            split at h
            · exact absurd h (by simp)
            · rename_i s4 u res heq
              have hst := commit_some_state heq
              simp only [Option.some.injEq, Prod.mk.injEq] at h
              obtain ⟨hs', hr⟩ := h
              refine Or.inr ⟨found_cart, q, read_ok_iff.mp hread, hq, hr.symm, ?_⟩
              rw [← hs', hst]
              simp [applyWrites, mapInsert, removeMutation]
            · exact absurd h (by simp)
          · -- updateResult error, rollback
            split at h
            · exact absurd h (by simp)
            · rename_i s2 u heq
              have hst := rollback_some_state heq
              simp only [Option.some.injEq, Prod.mk.injEq] at h
              obtain ⟨hs', hr⟩ := h
              exact Or.inl ⟨_, hr.symm, by rw [← hs', hst]⟩

/-- Unit-of-Work states reachable from the initial empty state by complete,
non-panicking command-handler invocations (any environment behaviour, any
generated id/timestamp, any input). -/
inductive Reachable : UowState → Prop where
  | init : Reachable { store := [], session := [], events_to_publish := [] }
  | create {b : Backend} {newId : String} {now : Int} {s s' : UowState}
      {r : Except String CreateCartResponse} :
      Reachable s → CreateCartCommandHandler.handle b newId now s = some (s', r) →
      Reachable s'
  | add {b : Backend} {input : CartProductCommand} {s s' : UowState}
      {r : Except String AddProductToCartResponse} :
      Reachable s → AddProductToCartCommandHandler.handle b s input = some (s', r) →
      Reachable s'
  | remove {b : Backend} {input : CartProductCommand} {s s' : UowState}
      {r : Except String EmptyResponse} :
      Reachable s → RemoveProductFromCartCommandHandler.handle b s input = some (s', r) →
      Reachable s'

theorem reachable_storeWF {s : UowState} (h : Reachable s) : storeWF s.store := by
  induction h with
  | init => intro id c hmem; simp at hmem
  | create hre hh ih =>
      rcases create_handle_store_inv hh with hst | hst
      · rw [hst]; exact ih
      · rw [hst]
        refine storeWF_mapInsert ih ?_
        intro p q hmem
        simp at hmem
  | add hre hh ih =>
      rcases add_handle_some_inv hh with ⟨msg, -, hst⟩ | ⟨cart, hget, -, hst⟩
      · rw [hst]; exact ih
      · rw [hst]
        exact storeWF_mapInsert ih (cartWF_addMutation (storeWF_get ih hget) _)
  | remove hre hh ih =>
      rcases remove_handle_some_inv hh with ⟨msg, -, hst⟩ | ⟨cart, q, hget, hq, -, hst⟩
      · rw [hst]; exact ih
      · rw [hst]
        exact storeWF_mapInsert ih (cartWF_removeMutation (storeWF_get ih hget) _ hq)

/-- N-fold repetition of a successful AddProductToCart call in the all-good
environment; any validation error, panic or handler error aborts the chain. -/
def addN (input : CartProductCommand) : Nat → UowState → Option UowState
  | 0, s => some s
  | Nat.succ n, s =>
      match AddProductToCartCommandHandler.handle goodBackend s input with
      | some (s', Except.ok _) => addN input n s'
      | _ => none

theorem addN_quantity {input : CartProductCommand} (n : Nat) :
    ∀ (s : UowState) (cart : Cart) (q : Int),
      input.cart_id ≠ "" → input.product_id ≠ "" →
      mapGet s.store input.cart_id = some cart →
      mapGet cart.products input.product_id = some q →
      ∃ (s' : UowState) (cart' : Cart),
        addN input n s = some s' ∧
        mapGet s'.store input.cart_id = some cart' ∧
        mapGet cart'.products input.product_id = some (q + n) := by
  induction n with
  | zero =>
      intro s cart q hc hp hcart hq
      exact ⟨s, cart, rfl, hcart, by simpa using hq⟩
  | succ n ih =>
      intro s cart q hc hp hcart hq
      have hstep := add_handle_good_eq hc hp hcart
      have hcart' : mapGet (mapInsert s.store input.cart_id
          (addMutation cart input.product_id)) input.cart_id =
          some (addMutation cart input.product_id) := mapGet_mapInsert_self _ _ _
      have hq' : mapGet (addMutation cart input.product_id).products
          input.product_id = some (q + 1) := by
        unfold addMutation
        rw [hq]
        exact mapGet_mapInsert_self _ _ _
      obtain ⟨s', cart', hrun, hget', hqty⟩ :=
        ih { store := mapInsert s.store input.cart_id
               (addMutation cart input.product_id)
             session := []
             events_to_publish := [] }
          (addMutation cart input.product_id) (q + 1) hc hp hcart' hq'
      refine ⟨s', cart', ?_, hget', ?_⟩
      · rw [show addN input (Nat.succ n) s =
            match AddProductToCartCommandHandler.handle goodBackend s input with
            | some (s', Except.ok _) => addN input n s'
            | _ => none from rfl, hstep]
        exact hrun
      · rw [hqty]
        congr 1
        push_cast
        ring

/-! Claim theorems. -/

/-- C1: for every commit of the Unit of Work, the underlying transaction is
committed first: if the transaction commit fails the call panics at the
`.unwrap()` before any publish attempt (`none` — no publish results exist),
so staged events are published only when the transaction commit succeeded.
When it succeeds, every staged event is offered to the broker exactly once,
the call returns `Ok` exactly when every staged event published, and even
when some publish failed the post-state store still holds the applied
transaction writes — the data mutation is neither rolled back nor
retried. -/
theorem C1_commit_contract (b : Backend) (s : UowState) :
    (b.txCommitOk = false → OrderUnitOfWork.commit b s = none) ∧
    (b.txCommitOk = true →
      ∃ (r : Except String Unit) (results : List (Except String Unit)),
        OrderUnitOfWork.commit b s =
          some ({ store := applyWrites s.store s.session, session := [],
                  events_to_publish := [] }, r, results) ∧
        results = s.events_to_publish.map b.publish ∧
        (r = Except.ok () ↔ ∀ e ∈ s.events_to_publish, b.publish e = Except.ok ())) := by
  constructor
  · intro htx
    unfold OrderUnitOfWork.commit
    rw [htx]
    simp
  · intro htx
    unfold OrderUnitOfWork.commit
    rw [htx]
    dsimp only
    by_cases hfail : (s.events_to_publish.map b.publish).any exceptIsErr = true
    · rw [if_pos hfail]
      refine ⟨_, _, rfl, rfl, ?_⟩
      constructor
      · intro hcontra
        exact absurd hcontra (by simp)
      · intro hall
        rw [any_exceptIsErr_map_eq_false.mpr hall] at hfail
        exact absurd hfail (by simp)
    · rw [if_neg hfail]
      refine ⟨_, _, rfl, rfl, ?_⟩
      have hfalse : (s.events_to_publish.map b.publish).any exceptIsErr = false := by
        revert hfail
        cases (s.events_to_publish.map b.publish).any exceptIsErr <;> simp
      exact iff_of_true rfl (any_exceptIsErr_map_eq_false.mp hfalse)

/-- Environment whose transaction commit fails (the `.unwrap()` in
`commit` would panic). -/
def noTxBackend : Backend := { goodBackend with txCommitOk := false }

/-- A state with one staged event, used as concrete input. -/
def oneEventState : UowState :=
  { store := [], session := [],
    events_to_publish := [Event.ProductAddedToCartEvent "p1"] }

/-- Witness for C1 at a concrete input: with a failing transaction commit
the call panics before publishing. -/
theorem C1_commit_contract_witness :
    OrderUnitOfWork.commit noTxBackend oneEventState = none :=
  (C1_commit_contract noTxBackend oneEventState).1 rfl

/-- C2: a commit whose broker fails on a strict non-empty subset of the K
staged events still makes exactly K publish attempts (one per staged event,
in order — no event is skipped because an earlier one failed), reports
failure to the caller, and the aggregate mutation written under the
transaction is in the post-state store, observable by a subsequent
repository read. -/
theorem C2_commit_partial_publish (b : Backend) (s : UowState) (K : Nat)
    (hK : s.events_to_publish.length = K)
    (htx : b.txCommitOk = true)
    (hfail : ∃ e ∈ s.events_to_publish, b.publish e ≠ Except.ok ())
    (_hok : ∃ e ∈ s.events_to_publish, b.publish e = Except.ok ())
    (huniq : (s.session.map Prod.fst).Nodup) :
    ∃ results : List (Except String Unit),
      OrderUnitOfWork.commit b s =
        some ({ store := applyWrites s.store s.session, session := [],
                events_to_publish := [] },
              Except.error "Failed to commit changes.", results) ∧
      results.length = K ∧
      results = s.events_to_publish.map b.publish ∧
      (∀ id c, mapGet s.session id = some c →
        MongoDbCartRepository.read (applyWrites s.store s.session) id =
          Except.ok c) := by
  have hany : (s.events_to_publish.map b.publish).any exceptIsErr = true := by
    cases hcase : (s.events_to_publish.map b.publish).any exceptIsErr
    · obtain ⟨e, hmem, hne⟩ := hfail
      exact absurd (any_exceptIsErr_map_eq_false.mp hcase e hmem) hne
    · rfl
  refine ⟨s.events_to_publish.map b.publish, ?_, ?_, rfl, ?_⟩
  · unfold OrderUnitOfWork.commit
    rw [htx]
    dsimp only
    rw [if_pos hany]
    rfl
  · rw [List.length_map, hK]
  · intro id c hc
    unfold MongoDbCartRepository.read
    rw [mapGet_applyWrites_of_get huniq hc]

/-- Broker that fails exactly on the `ProductAddedToCartEvent` for
product `p1`. -/
def failP1Backend : Backend :=
  { goodBackend with
    publish := fun e =>
      match e with
      | Event.ProductAddedToCartEvent p =>
          if p = "p1" then Except.error "broker down" else Except.ok ()
      | Event.ProductRemovedFromCartEvent _ => Except.ok () }

/-- A cart value used as concrete input. -/
def cartW : Cart :=
  { id := "c1", products := [], created_at_utc := 5, updated_at_utc := 6,
    version := 7 }

/-- A state about to commit: one pending transactional write and two staged
events, the broker failing on the first only. -/
def partialFailState : UowState :=
  { store := [], session := [("c1", cartW)],
    events_to_publish := [Event.ProductAddedToCartEvent "p1",
                          Event.ProductAddedToCartEvent "p2"] }

/-- Witness for C2 at a concrete input: two staged events, the first fails,
two attempts are made, the commit reports failure, and reading the written
cart back succeeds. -/
theorem C2_commit_partial_publish_witness :
    ∃ results : List (Except String Unit),
      OrderUnitOfWork.commit failP1Backend partialFailState =
        some ({ store := applyWrites partialFailState.store partialFailState.session,
                session := [], events_to_publish := [] },
              Except.error "Failed to commit changes.", results) ∧
      results.length = 2 ∧
      results = partialFailState.events_to_publish.map failP1Backend.publish ∧
      (∀ id c, mapGet partialFailState.session id = some c →
        MongoDbCartRepository.read
          (applyWrites partialFailState.store partialFailState.session) id =
          Except.ok c) :=
  C2_commit_partial_publish failP1Backend partialFailState 2 rfl rfl
    ⟨Event.ProductAddedToCartEvent "p1", by simp [partialFailState],
      by simp [failP1Backend, goodBackend]⟩
    ⟨Event.ProductAddedToCartEvent "p2", by simp [partialFailState],
      by simp [failP1Backend, goodBackend]⟩
    (by simp [partialFailState])

/-- C10: `InMemoryCartRepository::update` has upsert semantics: for every
prior store contents, identifier, and cart value — including an identifier
with no existing entry — it stores the value and returns it with `Ok`; the
`did not exist` error branch is unreachable because the lookup directly
follows the insert of the same key. -/
theorem C10_inmemory_update_upsert (carts : List (String × Cart)) (id : String)
    (cart : Cart) :
    InMemoryCartRepository.update carts id cart =
      (mapInsert carts id cart, Except.ok cart) := by
  unfold InMemoryCartRepository.update
  dsimp only
  rw [mapGet_mapInsert_self]

/-- C3 evidence, evaluated at the failing input: starting from a state whose
staged-event queue holds one event, `rollback` succeeds but leaves that
event in the queue (the function only aborts the transaction — src/uow.rs
lines 110-119 never touch `events_to_publish`), and the next `commit`
publishes the stale event (one publish attempt, made for the event staged
before the rollback).  The claim — rollback clears the staged-event queue,
so a later commit never publishes events staged before the rollback — is
contradicted by the code. -/
theorem C3_rollback_keeps_staged_events :
    OrderUnitOfWork.rollback goodBackend oneEventState =
      some (oneEventState, Except.ok ()) ∧
    oneEventState.events_to_publish = [Event.ProductAddedToCartEvent "p1"] ∧
    OrderUnitOfWork.commit goodBackend oneEventState =
      some ({ store := [], session := [], events_to_publish := [] },
            Except.ok (), [Except.ok ()]) :=
  ⟨rfl, rfl, rfl⟩

/-- Broker that fails on every event. -/
def failAllBackend : Backend :=
  { goodBackend with publish := fun _ => Except.error "broker down" }

/-- A state holding one cart, with nothing staged or pending. -/
def oneCartState : UowState :=
  { store := [("c1", cartW)], session := [], events_to_publish := [] }

/-- C4 counterexample: when the transaction commits but publication fails,
the result handed back by `commit` is not a distinct, inspectable
partial-failure outcome.  Concretely: (a) with two staged events of which
only the first fails, `commit` returns the plain error string
`Failed to commit changes.` in its `Result<(), String>` — a generic failure
string, the only error this function ever returns; (b) the caller-visible
part of the outcome (post-state and result) is identical to the outcome
when every publish fails, so the result does not identify which or how many
events failed; (c) the command handlers — the actual callers — `.unwrap()`
this error, so on a publish failure after a durable mutation they panic
(`none`) instead of surfacing any inspectable outcome. -/
theorem C4_no_distinct_outcome_counterexample :
    OrderUnitOfWork.commit failP1Backend partialFailState =
      some ({ store := [("c1", cartW)], session := [], events_to_publish := [] },
            Except.error "Failed to commit changes.",
            [Except.error "broker down", Except.ok ()]) ∧
    (OrderUnitOfWork.commit failP1Backend partialFailState).map
        (fun o => (o.1, o.2.1)) =
      (OrderUnitOfWork.commit failAllBackend partialFailState).map
        (fun o => (o.1, o.2.1)) ∧
    AddProductToCartCommandHandler.handle failP1Backend oneCartState
      { cart_id := "c1", product_id := "p1" } = none :=
  ⟨rfl, rfl, rfl⟩

/-- C4 amended: when the transaction commit succeeds but at least one staged
event fails to publish, `commit` returns the fixed generic error string
`Failed to commit changes.` — the same caller-visible value whatever subset
of events failed — while the post-state store keeps the applied writes. -/
theorem C4_amended_generic_failure_string (b : Backend) (s : UowState)
    (htx : b.txCommitOk = true)
    (hfail : ∃ e ∈ s.events_to_publish, b.publish e ≠ Except.ok ()) :
    OrderUnitOfWork.commit b s =
      some ({ store := applyWrites s.store s.session, session := [],
              events_to_publish := [] },
            Except.error "Failed to commit changes.",
            s.events_to_publish.map b.publish) := by
  have hany : (s.events_to_publish.map b.publish).any exceptIsErr = true := by
    cases hcase : (s.events_to_publish.map b.publish).any exceptIsErr
    · obtain ⟨e, hmem, hne⟩ := hfail
      exact absurd (any_exceptIsErr_map_eq_false.mp hcase e hmem) hne
    · rfl
  unfold OrderUnitOfWork.commit
  rw [htx]
  dsimp only
  rw [if_pos hany]
  rfl

/-- Witness for the amended C4 at a concrete input. -/
theorem C4_amended_generic_failure_string_witness :
    OrderUnitOfWork.commit failP1Backend partialFailState =
      some ({ store := applyWrites partialFailState.store partialFailState.session,
              session := [], events_to_publish := [] },
            Except.error "Failed to commit changes.",
            partialFailState.events_to_publish.map failP1Backend.publish) :=
  C4_amended_generic_failure_string failP1Backend partialFailState rfl
    ⟨Event.ProductAddedToCartEvent "p1", by simp [partialFailState],
      by simp [failP1Backend, goodBackend]⟩

/-- C5: in the all-good environment, AddProductToCart on a stored cart with
no entry for the product stores quantity 1; repeating the call N ≥ 1 times
on an uncontended cart leaves stored quantity N; and a single call on a
cart whose entry holds quantity q stores exactly q + 1. -/
theorem C5_add_quantities (s : UowState) (input : CartProductCommand) (cart : Cart)
    (hc : input.cart_id ≠ "") (hp : input.product_id ≠ "")
    (hcart : mapGet s.store input.cart_id = some cart)
    (hnone : mapGet cart.products input.product_id = none) :
    (∃ (s1 : UowState) (cart1 : Cart),
        AddProductToCartCommandHandler.handle goodBackend s input =
          some (s1, Except.ok { cart_id := cart.id }) ∧
        mapGet s1.store input.cart_id = some cart1 ∧
        mapGet cart1.products input.product_id = some 1) ∧
    (∀ N : Nat, 1 ≤ N →
      ∃ (s' : UowState) (cart' : Cart),
        addN input N s = some s' ∧
        mapGet s'.store input.cart_id = some cart' ∧
        mapGet cart'.products input.product_id = some (N : Int)) ∧
    (∀ (s0 : UowState) (cart0 : Cart) (q : Int),
      mapGet s0.store input.cart_id = some cart0 →
      mapGet cart0.products input.product_id = some q →
      ∃ (s1 : UowState) (cart1 : Cart),
        AddProductToCartCommandHandler.handle goodBackend s0 input =
          some (s1, Except.ok { cart_id := cart0.id }) ∧
        mapGet s1.store input.cart_id = some cart1 ∧
        mapGet cart1.products input.product_id = some (q + 1)) := by
  have hq1 : mapGet (addMutation cart input.product_id).products
      input.product_id = some 1 := by
    unfold addMutation
    rw [hnone]
    exact mapGet_mapInsert_self _ _ _
  refine ⟨?_, ?_, ?_⟩
  · exact ⟨_, addMutation cart input.product_id, add_handle_good_eq hc hp hcart,
      mapGet_mapInsert_self _ _ _, hq1⟩
  · intro N hN
    obtain ⟨m, rfl⟩ : ∃ m, N = m + 1 := ⟨N - 1, by omega⟩
    have hstep := add_handle_good_eq hc hp hcart
    obtain ⟨s', cart', hrun, hget', hqty⟩ :=
      addN_quantity m
        { store := mapInsert s.store input.cart_id
            (addMutation cart input.product_id)
          session := []
          events_to_publish := [] }
        (addMutation cart input.product_id) 1 hc hp
        (mapGet_mapInsert_self _ _ _) hq1
    refine ⟨s', cart', ?_, hget', ?_⟩
    · rw [show addN input (m + 1) s =
          match AddProductToCartCommandHandler.handle goodBackend s input with
          | some (s', Except.ok _) => addN input m s'
          | _ => none from rfl, hstep]
      exact hrun
    · rw [hqty]
      congr 1
      push_cast
      ring
  · intro s0 cart0 q hcart0 hq
    have hq' : mapGet (addMutation cart0 input.product_id).products
        input.product_id = some (q + 1) := by
      unfold addMutation
      rw [hq]
      exact mapGet_mapInsert_self _ _ _
    exact ⟨_, addMutation cart0 input.product_id, add_handle_good_eq hc hp hcart0,
      mapGet_mapInsert_self _ _ _, hq'⟩

/-- Witness for C5 at a concrete input: three repetitions on a cart with no
prior entry store quantity 3. -/
theorem C5_add_quantities_witness :
    ∃ (s' : UowState) (cart' : Cart),
      addN { cart_id := "c1", product_id := "p1" } 3 oneCartState = some s' ∧
      mapGet s'.store "c1" = some cart' ∧
      mapGet cart'.products "p1" = some 3 :=
  (C5_add_quantities oneCartState { cart_id := "c1", product_id := "p1" } cartW
    (by decide) (by decide) rfl rfl).2.1 3 (by omega)

/-- C6: in the all-good environment, RemoveProductFromCart on a cart whose
entry for the product holds quantity 1 removes the entry entirely (other
entries untouched); with quantity greater than 1 it decrements by exactly
1; and — for every environment — on a cart with no entry for the product it
returns the `was not found` error with the state completely unchanged: no
store mutation, no pending write, no staged event. -/
theorem C6_remove_semantics (s : UowState) (input : CartProductCommand) (cart : Cart)
    (hc : input.cart_id ≠ "") (hp : input.product_id ≠ "")
    (hcart : mapGet s.store input.cart_id = some cart) :
    (mapGet cart.products input.product_id = some 1 →
      ∃ cart' : Cart,
        RemoveProductFromCartCommandHandler.handle goodBackend s input =
          some ({ store := mapInsert s.store input.cart_id cart', session := [],
                  events_to_publish := [] }, Except.ok {}) ∧
        mapGet cart'.products input.product_id = none ∧
        (∀ p, p ≠ input.product_id →
          mapGet cart'.products p = mapGet cart.products p)) ∧
    (∀ q : Int, mapGet cart.products input.product_id = some q → 1 < q →
      ∃ cart' : Cart,
        RemoveProductFromCartCommandHandler.handle goodBackend s input =
          some ({ store := mapInsert s.store input.cart_id cart', session := [],
                  events_to_publish := [] }, Except.ok {}) ∧
        mapGet cart'.products input.product_id = some (q - 1) ∧
        (∀ p, p ≠ input.product_id →
          mapGet cart'.products p = mapGet cart.products p)) ∧
    (mapGet cart.products input.product_id = none →
      ∀ b : Backend,
        RemoveProductFromCartCommandHandler.handle b s input =
          some (s, Except.error
            ("Cart with id " ++ input.cart_id ++ " was not found"))) := by
  refine ⟨?_, ?_, ?_⟩
  · intro hq
    refine ⟨removeMutation cart input.product_id 1,
      remove_handle_good_eq hc hp hcart hq, ?_, ?_⟩
    · unfold removeMutation
      rw [if_pos rfl]
      exact mapGet_mapRemoveAll_self _ _
    · intro p hpne
      unfold removeMutation
      rw [if_pos rfl]
      exact mapGet_mapRemoveAll_ne _ _ _ hpne
  · intro q hq hq1
    have hne : q ≠ 1 := by omega
    refine ⟨removeMutation cart input.product_id q,
      remove_handle_good_eq hc hp hcart hq, ?_, ?_⟩
    · unfold removeMutation
      rw [if_neg hne]
      exact mapGet_mapInsert_self _ _ _
    · intro p hpne
      unfold removeMutation
      rw [if_neg hne]
      exact mapGet_mapInsert_ne _ _ _ _ hpne
  · intro hq b
    exact remove_handle_notfound_eq hc hp hcart hq

/-- A cart holding the entries `p1 ↦ 1` and `p2 ↦ 3`. -/
def cartTwoEntries : Cart :=
  { id := "c1", products := [("p1", 1), ("p2", 3)], created_at_utc := 5,
    updated_at_utc := 6, version := 7 }

/-- A state storing `cartTwoEntries` under id `c1`. -/
def twoEntriesState : UowState :=
  { store := [("c1", cartTwoEntries)], session := [], events_to_publish := [] }

/-- Witness for C6 at a concrete input: removing `p1` (quantity 1) drops the
entry and leaves `p2` at 3. -/
theorem C6_remove_semantics_witness :
    ∃ cart' : Cart,
      RemoveProductFromCartCommandHandler.handle goodBackend twoEntriesState
        { cart_id := "c1", product_id := "p1" } =
        some ({ store := mapInsert twoEntriesState.store "c1" cart', session := [],
                events_to_publish := [] }, Except.ok {}) ∧
      mapGet cart'.products "p1" = none ∧
      (∀ p, p ≠ "p1" → mapGet cart'.products p = mapGet cartTwoEntries.products p) :=
  (C6_remove_semantics twoEntriesState { cart_id := "c1", product_id := "p1" }
    cartTwoEntries (by decide) (by decide) rfl).1 rfl

/-- C7: an empty cart id or an empty product id makes both
AddProductToCart and RemoveProductFromCart return a validation error
immediately: for every environment behaviour and every state, the returned
state is exactly the input state — no repository read influences the
outcome, no mutation, no transaction, no staged event — and both handlers
return the same validation message. -/
theorem C7_empty_id_validation (b : Backend) (s : UowState)
    (input : CartProductCommand)
    (h : input.cart_id = "" ∨ input.product_id = "") :
    ∃ msg : String,
      AddProductToCartCommandHandler.handle b s input =
        some (s, Except.error msg) ∧
      RemoveProductFromCartCommandHandler.handle b s input =
        some (s, Except.error msg) := by
  by_cases hc : input.cart_id = ""
  · refine ⟨"Cart ID cannot be null or empty!!!", ?_, ?_⟩
    · unfold AddProductToCartCommandHandler.handle
      rw [if_pos hc]
    · unfold RemoveProductFromCartCommandHandler.handle
      rw [if_pos hc]
  · rcases h with h | hp
    · exact absurd h hc
    · refine ⟨"Product ID cannot be null or empty!!!", ?_, ?_⟩
      · unfold AddProductToCartCommandHandler.handle
        rw [if_neg hc, if_pos hp]
      · unfold RemoveProductFromCartCommandHandler.handle
        rw [if_neg hc, if_pos hp]

/-- Witness for C7 at a concrete input: the empty cart id is rejected by
both handlers with the state unchanged. -/
theorem C7_empty_id_validation_witness :
    ∃ msg : String,
      AddProductToCartCommandHandler.handle failAllBackend oneCartState
        { cart_id := "", product_id := "p1" } =
        some (oneCartState, Except.error msg) ∧
      RemoveProductFromCartCommandHandler.handle failAllBackend oneCartState
        { cart_id := "", product_id := "p1" } =
        some (oneCartState, Except.error msg) :=
  C7_empty_id_validation failAllBackend oneCartState
    { cart_id := "", product_id := "p1" } (Or.inl rfl)

/-- C8: in every Unit-of-Work state reachable from the empty initial state
by CreateCart, AddProductToCart and RemoveProductFromCart invocations
(under any environment behaviour), every quantity stored in any cart's
product map is at least 1 — a quantity that would reach 0 is removed as an
entry (the `retain` branch) rather than stored as zero. -/
theorem C8_reachable_quantities_positive (s : UowState) (h : Reachable s) :
    ∀ (id : String) (c : Cart) (p : String) (q : Int),
      mapGet s.store id = some c → mapGet c.products p = some q → 1 ≤ q := by
  intro id c p q hc hp
  exact reachable_storeWF h id c (mapGet_mem hc) p q (mapGet_mem hp)

/-- State after CreateCart(id `c9`) from the initial state. -/
def createdState : UowState :=
  { store := [("c9", { id := "c9", products := [], created_at_utc := 0,
                       updated_at_utc := 0, version := 0 })],
    session := [], events_to_publish := [] }

/-- State after additionally running AddProductToCart(`c9`, `p1`). -/
def addedState : UowState :=
  { store := [("c9", { id := "c9", products := [("p1", 1)], created_at_utc := 0,
                       updated_at_utc := 0, version := 0 })],
    session := [], events_to_publish := [] }

/-- Witness for C8 at a concrete reachable state: after CreateCart and one
AddProductToCart, the quantity stored for `p1` in cart `c9` is at least 1. -/
theorem C8_reachable_quantities_positive_witness :
    mapGet addedState.store "c9" =
      some { id := "c9", products := [("p1", 1)], created_at_utc := 0,
             updated_at_utc := 0, version := 0 } ∧
    (1 : Int) ≤ 1 := by
  have h1 : CreateCartCommandHandler.handle goodBackend "c9" 0
      { store := [], session := [], events_to_publish := [] } =
      some (createdState, Except.ok { id := "c9" }) := rfl
  have h2 : AddProductToCartCommandHandler.handle goodBackend createdState
      { cart_id := "c9", product_id := "p1" } =
      some (addedState, Except.ok { cart_id := "c9" }) := rfl
  refine ⟨rfl, ?_⟩
  exact C8_reachable_quantities_positive addedState
    (Reachable.add (Reachable.create Reachable.init h1) h2) "c9"
    { id := "c9", products := [("p1", 1)], created_at_utc := 0,
      updated_at_utc := 0, version := 0 }
    "p1" 1 rfl rfl

/-- C9: every successful AddProductToCart or RemoveProductFromCart leaves
the stored cart's fields other than the product map — id, created_at_utc,
updated_at_utc and version — exactly as they were: neither handler advances
the last-update timestamp or the version counter. -/
theorem C9_mutations_preserve_frame (b : Backend) (s : UowState)
    (input : CartProductCommand) (cart : Cart)
    (hcart : mapGet s.store input.cart_id = some cart) :
    (∀ (s' : UowState) (r : AddProductToCartResponse),
      AddProductToCartCommandHandler.handle b s input = some (s', Except.ok r) →
      ∃ cart' : Cart, mapGet s'.store input.cart_id = some cart' ∧
        cart'.id = cart.id ∧ cart'.created_at_utc = cart.created_at_utc ∧
        cart'.updated_at_utc = cart.updated_at_utc ∧
        cart'.version = cart.version) ∧
    (∀ (s' : UowState) (r : EmptyResponse),
      RemoveProductFromCartCommandHandler.handle b s input = some (s', Except.ok r) →
      ∃ cart' : Cart, mapGet s'.store input.cart_id = some cart' ∧
        cart'.id = cart.id ∧ cart'.created_at_utc = cart.created_at_utc ∧
        cart'.updated_at_utc = cart.updated_at_utc ∧
        cart'.version = cart.version) := by
  constructor
  · intro s' r h
    rcases add_handle_some_inv h with ⟨msg, hmsg, -⟩ | ⟨cart0, hget0, -, hs'⟩
    · exact absurd hmsg (by simp)
    · have hco : cart0 = cart := by
        rw [hget0] at hcart
        exact Option.some.inj hcart
      subst hco
      subst hs'
      exact ⟨addMutation cart0 input.product_id, mapGet_mapInsert_self _ _ _,
        rfl, rfl, rfl, rfl⟩
  · intro s' r h
    rcases remove_handle_some_inv h with ⟨msg, hmsg, -⟩ | ⟨cart0, q, hget0, -, -, hs'⟩
    · exact absurd hmsg (by simp)
    · have hco : cart0 = cart := by
        rw [hget0] at hcart
        exact Option.some.inj hcart
      subst hco
      subst hs'
      exact ⟨removeMutation cart0 input.product_id q, mapGet_mapInsert_self _ _ _,
        rfl, rfl, rfl, rfl⟩

/-- State after AddProductToCart(`c1`, `p2`) from `twoEntriesState`. -/
def addedTwoState : UowState :=
  { store := [("c1", { id := "c1", products := [("p1", 1), ("p2", 4)],
                       created_at_utc := 5, updated_at_utc := 6, version := 7 })],
    session := [], events_to_publish := [] }

/-- Witness for C9 at a concrete input: a successful AddProductToCart keeps
id, timestamps and version of the stored cart unchanged. -/
theorem C9_mutations_preserve_frame_witness :
    ∃ cart' : Cart, mapGet addedTwoState.store "c1" = some cart' ∧
      cart'.id = cartTwoEntries.id ∧
      cart'.created_at_utc = cartTwoEntries.created_at_utc ∧
      cart'.updated_at_utc = cartTwoEntries.updated_at_utc ∧
      cart'.version = cartTwoEntries.version := by
  have h : AddProductToCartCommandHandler.handle goodBackend twoEntriesState
      { cart_id := "c1", product_id := "p2" } =
      some (addedTwoState, Except.ok { cart_id := "c1" }) := rfl
  exact (C9_mutations_preserve_frame goodBackend twoEntriesState
    { cart_id := "c1", product_id := "p2" } cartTwoEntries rfl).1 addedTwoState
    { cart_id := "c1" } h

end EshopOrderService
